import Mathlib

/-!
Verification of the roadmap data model, progress tracker, normalizer,
store adapter and wizard step flow of the SkillSync career-roadmap
application, as a shallow embedding of the JavaScript source.

Conventions used throughout:
* JS numbers appearing as checklist counters are embedded as `Nat`/`Int`;
  the one floating-point operation, `Math.round(x)`, is embedded over `ℚ`
  as `Int.floor (x + 1/2)`, which is exactly `Math.round` for finite
  non-negative reals.  A JS division by zero yields `NaN`/`Infinity`,
  which is embedded as `none : Option Int`.
* Fields that the source guards with `|| default` are embedded as
  `Option` types; JS falsiness of `0` and `""` is reproduced by the
  `jsOrNat` / `jsOrStr` helpers.
* All definitions are computable, so every theorem can be evaluated on
  concrete inputs.
-/

/-- Canonical ChecklistItem (data model §3): one objective or milestone. -/
structure ChecklistItem where
  id : String
  text : String
  completed : Bool
deriving DecidableEq, Repr

/-- Canonical Phase (data model §3).  Field names follow the source's
snake_case spelling used in `RoadmapDetail.jsx`. -/
structure Phase where
  id : String
  phase_number : Nat
  title : String
  duration_weeks : Nat
  tools_covered : List String
  learning_objectives : List ChecklistItem
  milestones : List ChecklistItem
  expanded : Bool
deriving DecidableEq, Repr

/-- Canonical roadmap as held in the `RoadmapDetail` component state after
normalization: `phases` is always an array there. -/
structure Roadmap where
  id : String
  status : String
  progress : Int
  phases : List Phase
deriving DecidableEq, Repr

/-- A roadmap document as the two progress functions see it: the `phases`
field may be absent (`none`), which both functions tolerate. -/
structure RoadmapDoc where
  phases : Option (List Phase)
deriving DecidableEq, Repr

/-- Embedding of `Math.round` from the JavaScript source, embedded over `ℚ`:
round half away from zero coincides with `Int.floor (q + 1/2)` on the
non-negative rationals produced by the progress computations. -/
def jsRound (q : ℚ) : Int := Int.floor (q + 1/2)

/-- The counter loop of `calculateProgress` (`RoadmapDetail.jsx` lines
77-89): walks every phase's `learning_objectives` and `milestones`,
returning `(totalItems, completedItems)`. -/
def cpTotals (phases : List Phase) : Nat × Nat :=
  phases.foldl (fun acc phase =>
    let acc1 := phase.learning_objectives.foldl
      (fun a obj => (a.1 + 1, if obj.completed then a.2 + 1 else a.2)) acc
    phase.milestones.foldl
      (fun a ms => (a.1 + 1, if ms.completed then a.2 + 1 else a.2)) acc1)
    (0, 0)

/-- The counter loop of `calculateProgressFromRoadmap` (`RoadmapDetail.jsx`
lines 180-192); the source duplicates the loop of `calculateProgress`
verbatim, and the duplication is kept here so that the equivalence claim
compares two genuinely separate definitions. -/
def cpfrTotals (phases : List Phase) : Nat × Nat :=
  phases.foldl (fun acc phase =>
    let acc1 := phase.learning_objectives.foldl
      (fun a obj => (a.1 + 1, if obj.completed then a.2 + 1 else a.2)) acc
    phase.milestones.foldl
      (fun a ms => (a.1 + 1, if ms.completed then a.2 + 1 else a.2)) acc1)
    (0, 0)

/-- Source `calculateProgress` (`RoadmapDetail.jsx` lines 74-92): the "preview"
computation.  It reads the component's `roadmap` state, returning `0` when
the state is still `null` or has no `phases` field. -/
def calculateProgress (roadmap : Option RoadmapDoc) : Int :=
  match roadmap with
  | none => 0
  | some r =>
    match r.phases with
    | none => 0
    | some phases =>
      let t := cpTotals phases
      if 0 < t.1 then jsRound ((t.2 : ℚ) / (t.1 : ℚ) * 100) else 0

/-- Source `calculateProgressFromRoadmap` (`RoadmapDetail.jsx` lines 179-195):
the "persisted" computation used by `saveProgress`, guarding the missing
`phases` field with `(roadmapData.phases || [])`. -/
def calculateProgressFromRoadmap (r : RoadmapDoc) : Int :=
  let t := cpfrTotals (r.phases.getD [])
  if 0 < t.1 then jsRound ((t.2 : ℚ) / (t.1 : ℚ) * 100) else 0

/-- Flat/legacy Tool (data model §3): only the name participates in the
progress logic. -/
structure FlatTool where
  name : String
deriving DecidableEq, Repr

/-- The flat-tool progress computation of `handleToggleComplete`
(`components/RoadmapDetail.jsx`, flat variant, line 124):
`Math.round((completedArray.length / roadmap.selectedTools.length) * 100)`.
The source has no guard for an empty `selectedTools`; the JS division by
zero produces `NaN`/`Infinity` inside `Math.round`, embedded as `none`. -/
def flatProgress (completedTools : Finset String) (selectedTools : List FlatTool) :
    Option Int :=
  if selectedTools.length = 0 then none
  else some (jsRound ((completedTools.card : ℚ) / (selectedTools.length : ℚ) * 100))

-- The item-level fold step keeps the completed counter at or below the
-- total counter.
theorem itemFold_le (l : List ChecklistItem) (a : Nat × Nat) (h : a.2 ≤ a.1) :
    (l.foldl (fun a obj => (a.1 + 1, if obj.completed then a.2 + 1 else a.2)) a).2 ≤
      (l.foldl (fun a obj => (a.1 + 1, if obj.completed then a.2 + 1 else a.2)) a).1 := by
  induction l generalizing a with
  | nil => exact h
  | cons x xs ih =>
    apply ih
    by_cases hx : x.completed <;> simp [hx] <;> omega

theorem cpfrTotals_le (phases : List Phase) :
    (cpfrTotals phases).2 ≤ (cpfrTotals phases).1 := by
  suffices h : ∀ (a : Nat × Nat), a.2 ≤ a.1 →
      (phases.foldl (fun acc phase =>
        let acc1 := phase.learning_objectives.foldl
          (fun a obj => (a.1 + 1, if obj.completed then a.2 + 1 else a.2)) acc
        phase.milestones.foldl
          (fun a ms => (a.1 + 1, if ms.completed then a.2 + 1 else a.2)) acc1) a).2 ≤
      (phases.foldl (fun acc phase =>
        let acc1 := phase.learning_objectives.foldl
          (fun a obj => (a.1 + 1, if obj.completed then a.2 + 1 else a.2)) acc
        phase.milestones.foldl
          (fun a ms => (a.1 + 1, if ms.completed then a.2 + 1 else a.2)) acc1) a).1 by
    exact h (0, 0) (le_refl 0)
  induction phases with
  | nil => intro a h; exact h
  | cons p ps ih =>
    intro a h
    exact ih _ (itemFold_le _ _ (itemFold_le _ _ h))

-- Rounding a ratio of counters with numerator at most the denominator
-- always lands in [0, 100].
theorem jsRound_ratio_bounds (c t : Nat) (hct : c ≤ t) (ht : 0 < t) :
    0 ≤ jsRound ((c : ℚ) / (t : ℚ) * 100) ∧ jsRound ((c : ℚ) / (t : ℚ) * 100) ≤ 100 := by
  have htq : (0 : ℚ) < (t : ℚ) := by exact_mod_cast ht
  have h0 : (0 : ℚ) ≤ (c : ℚ) / (t : ℚ) := div_nonneg (by positivity) (le_of_lt htq)
  have h1 : (c : ℚ) / (t : ℚ) ≤ 1 := by
    rw [div_le_one htq]; exact_mod_cast hct
  constructor
  · apply Int.le_floor.mpr
    push_cast
    nlinarith
  · have hlt : (c : ℚ) / (t : ℚ) * 100 + 1/2 < ((101 : ℤ) : ℚ) := by
      push_cast; nlinarith
    have := Int.floor_lt.mpr hlt
    unfold jsRound
    omega

/-- The per-item update of `toggleObjective` (`RoadmapDetail.jsx` line 116):
`obj.id === objectiveId ? { ...obj, completed: !obj.completed } : obj`. -/
def toggleObjItem (objectiveId : String) (obj : ChecklistItem) : ChecklistItem :=
  if obj.id = objectiveId then { obj with completed := !obj.completed } else obj

/-- The per-phase update of `toggleObjective` (`RoadmapDetail.jsx`
lines 111-121). -/
def toggleObjPhase (phaseId objectiveId : String) (phase : Phase) : Phase :=
  if phase.id = phaseId then
    { phase with learning_objectives :=
        phase.learning_objectives.map (toggleObjItem objectiveId) }
  else phase

/-- Source `toggleObjective` (`RoadmapDetail.jsx` lines 108-126): immutable update
producing a new roadmap value. -/
def toggleObjective (r : Roadmap) (phaseId objectiveId : String) : Roadmap :=
  { r with phases := r.phases.map (toggleObjPhase phaseId objectiveId) }

/-- The per-item update of `toggleMilestone` (`RoadmapDetail.jsx` line 136). -/
def toggleMsItem (milestoneId : String) (ms : ChecklistItem) : ChecklistItem :=
  if ms.id = milestoneId then { ms with completed := !ms.completed } else ms

/-- The per-phase update of `toggleMilestone` (`RoadmapDetail.jsx`
lines 131-141). -/
def toggleMsPhase (phaseId milestoneId : String) (phase : Phase) : Phase :=
  if phase.id = phaseId then
    { phase with milestones := phase.milestones.map (toggleMsItem milestoneId) }
  else phase

/-- Source `toggleMilestone` (`RoadmapDetail.jsx` lines 128-146). -/
def toggleMilestone (r : Roadmap) (phaseId milestoneId : String) : Roadmap :=
  { r with phases := r.phases.map (toggleMsPhase phaseId milestoneId) }

/-- All `(phase id, objective)` pairs of a roadmap, in traversal order. -/
def objEntries (r : Roadmap) : List (String × ChecklistItem) :=
  r.phases.flatMap (fun p => p.learning_objectives.map (fun o => (p.id, o)))

/-- All `(phase id, milestone)` pairs of a roadmap, in traversal order. -/
def msEntries (r : Roadmap) : List (String × ChecklistItem) :=
  r.phases.flatMap (fun p => p.milestones.map (fun o => (p.id, o)))

/-- How many objectives of `r` a `(phaseId, objectiveId)` pair addresses. -/
def objMatchCount (r : Roadmap) (phaseId objectiveId : String) : Nat :=
  (objEntries r).countP (fun q => decide (q.1 = phaseId ∧ q.2.id = objectiveId))

/-- How many milestones of `r` a `(phaseId, milestoneId)` pair addresses. -/
def msMatchCount (r : Roadmap) (phaseId milestoneId : String) : Nat :=
  (msEntries r).countP (fun q => decide (q.1 = phaseId ∧ q.2.id = milestoneId))

/-- The `currentTool` expression persisted by `handleToggleComplete`
(flat `RoadmapDetail.jsx` lines 129-131):
`completedArray.length < selectedTools.length ?
 selectedTools[completedArray.length]?.name : null`. -/
def currentToolPointer (selectedTools : List FlatTool) (completed : Finset String) :
    Option String :=
  if completed.card < selectedTools.length then
    (selectedTools[completed.card]?).map FlatTool.name
  else none

/-- The fields `handleToggleComplete` passes to `updateRoadmapProgress`. -/
structure FlatUpdate where
  completedTools : Finset String
  progress : Option Int
  currentTool : Option String
deriving DecidableEq

/-- Source `handleToggleComplete` (flat `RoadmapDetail.jsx` lines 113-132): adds or
removes `toolName` from the completed set, recomputes the percentage and the
`currentTool` pointer, and persists all three. -/
def handleToggleComplete (selectedTools : List FlatTool)
    (completedItems : Finset String) (toolName : String) : FlatUpdate :=
  let newCompleted :=
    if toolName ∈ completedItems then completedItems.erase toolName
    else insert toolName completedItems
  { completedTools := newCompleted
  , progress := flatProgress newCompleted selectedTools
  , currentTool := currentToolPointer selectedTools newCompleted }

/-- The first not-yet-completed tool in original selection order, written
from the spec's words (§4.3 `toggleToolCompletion`); used to compare the
code's `currentTool` pointer against the specified one. -/
def firstUncompletedName (selectedTools : List FlatTool)
    (completed : Finset String) : Option String :=
  (selectedTools.find? (fun t => decide (t.name ∉ completed))).map FlatTool.name

/-- The completed set obtained when exactly the first `k` tools of the
selection have been completed, in order. -/
def completedPrefixSet (selectedTools : List FlatTool) (k : Nat) : Finset String :=
  (((selectedTools.take k).map FlatTool.name)).toFinset

/-- JS `x || d` on an optional number whose value `0` is falsy. -/
def jsOrNat : Option Nat → Nat → Nat
  | some n, d => if n = 0 then d else n
  | none, d => d

/-- JS `x || d` on an optional string whose value `""` is falsy. -/
def jsOrStr : Option String → String → String
  | some s, d => if s = "" then d else s
  | none, d => d

/-- A raw checklist entry before normalization: either a bare string coming
from the generation endpoint or an already-structured item. -/
inductive RawEntry where
  | str (s : String)
  | item (it : ChecklistItem)
deriving DecidableEq, Repr

/-- A raw phase as stored or generated: every field may be absent.
`tools_covered` entries may themselves be an absent `toolName`, as in the
JS array literal `[resource.toolName]`. -/
structure RawPhase where
  id : Option String
  phase_number : Option Nat
  title : Option String
  duration_weeks : Option Nat
  tools_covered : Option (List (Option String))
  learning_objectives : Option (List RawEntry)
  milestones : Option (List RawEntry)
  expanded : Option Bool
deriving DecidableEq, Repr

/-- One entry of a raw `learningResources` list. -/
structure RawResource where
  toolName : Option String
  phase_number : Option Nat
  duration_weeks : Option Nat
  tools_covered : Option (List (Option String))
  learning_objectives : Option (List RawEntry)
  milestones : Option (List RawEntry)
deriving DecidableEq, Repr

/-- A raw roadmap document before normalization.  Fields other than
`phases` and `learningResources` are spread through `fetchRoadmap`'s
normalization unchanged and are omitted here. -/
structure RawRoadmap where
  phases : Option (List RawPhase)
  learningResources : Option (List RawResource)
deriving DecidableEq, Repr

/-- Phase synthesis from one `learningResources` entry (`RoadmapDetail.jsx`
lines 38-47).  JS falsiness of `0` and `""` in the `||` defaults is
reproduced; an empty `tools_covered` array is truthy in JS and is kept. -/
def synthPhase (idx : Nat) (res : RawResource) : RawPhase :=
  { id := some ("phase-" ++ toString (idx + 1))
  , phase_number := some (jsOrNat res.phase_number (idx + 1))
  , title := some (jsOrStr res.toolName ("Phase " ++ toString (idx + 1)))
  , duration_weeks := some (jsOrNat res.duration_weeks 4)
  , tools_covered := some (res.tools_covered.getD [res.toolName])
  , learning_objectives := some (res.learning_objectives.getD [])
  , milestones := some (res.milestones.getD [])
  , expanded := some (decide (idx = 0)) }

/-- The string-wrapping step (`RoadmapDetail.jsx` lines 54-63): a bare
string becomes a ChecklistItem with `completed = false` and a synthesized
id; a structured item passes through unchanged.  The source draws ids from
`Date.now()`/`Math.random()`; that abstract supply is modelled as the
generator argument `gen`, applied to a kind tag (`0` for objectives, `1`
for milestones) and the wrapped text. -/
def wrapEntry (gen : Nat → String → String) (kind : Nat) : RawEntry → RawEntry
  | RawEntry.str s => RawEntry.item { id := gen kind s, text := s, completed := false }
  | RawEntry.item it => RawEntry.item it

/-- The per-phase checkbox initialization (`RoadmapDetail.jsx` lines 52-64):
guards both lists with `|| []` and wraps the bare strings. -/
def wrapPhase (gen : Nat → String → String) (phase : RawPhase) : RawPhase :=
  { phase with
      learning_objectives :=
        some ((phase.learning_objectives.getD []).map (wrapEntry gen 0))
    , milestones :=
        some ((phase.milestones.getD []).map (wrapEntry gen 1)) }

/-- JS `!roadmapData.phases || roadmapData.phases.length === 0`. -/
def jsEmptyPhases : Option (List RawPhase) → Bool
  | none => true
  | some ps => decide (ps.length = 0)

/-- The phase-synthesis step of `fetchRoadmap` (`RoadmapDetail.jsx`
lines 35-49): when `phases` is missing or empty and a non-empty
`learningResources` list exists, one phase is synthesized per resource;
otherwise the `phases` field is left as it was. -/
def resolvePhases (r : RawRoadmap) : Option (List RawPhase) :=
  if jsEmptyPhases r.phases then
    match r.learningResources with
    | some lrs =>
      if 0 < lrs.length then some (lrs.enum.map (fun p => synthPhase p.1 p.2))
      else r.phases
    | none => r.phases
  else r.phases

/-- The normalization performed by `fetchRoadmap` (`RoadmapDetail.jsx`
lines 35-64): synthesize phases from `learningResources` when `phases` is
missing or empty, then wrap every bare-string objective and milestone.
The final `roadmapData.phases.map(...)` has no `|| []` guard, so when
`phases` is still absent at that point the JS throws a `TypeError`;
that raised error is embedded as `none`. -/
def normalizeRoadmap (gen : Nat → String → String) (r : RawRoadmap) :
    Option RawRoadmap :=
  match resolvePhases r with
  | none => none
  | some ps => some { r with phases := some (ps.map (wrapPhase gen)) }

/-- A stored roadmap document as `getUserRoadmaps` sees it
(`roadmapservice.js`): the owning `userId` and the server timestamp,
which may be absent (`createdAt?.seconds || 0` in the source). -/
structure StoredRoadmap where
  id : String
  userId : String
  createdAtSeconds : Option Int
deriving DecidableEq, Repr

/-- The sort key of the client-side sort: `a.createdAt?.seconds || 0`.
A `seconds` value of `0` is falsy in JS and also defaults to `0`,
so `getD 0` is exact. -/
def createdAtKey (d : StoredRoadmap) : Int := d.createdAtSeconds.getD 0

/-- Descending order on `createdAt`, the comparator
`(a, b) => bTime - aTime` of `roadmapservice.js`. -/
def byCreatedAtDesc (a b : StoredRoadmap) : Prop := createdAtKey b ≤ createdAtKey a

instance : DecidableRel byCreatedAtDesc := fun a b =>
  inferInstanceAs (Decidable (createdAtKey b ≤ createdAtKey a))

instance : IsTotal StoredRoadmap byCreatedAtDesc :=
  ⟨fun a b => le_total (createdAtKey b) (createdAtKey a)⟩

instance : IsTrans StoredRoadmap byCreatedAtDesc :=
  ⟨fun _ _ _ h1 h2 => le_trans h2 h1⟩

/-- The client-side `roadmaps.sort((a, b) => bTime - aTime)` of
`getUserRoadmaps`.  JS `Array.prototype.sort` with this comparator is a
comparison sort; it is embedded as insertion sort, which realizes the
same (stable) specification. -/
def sortByCreatedAtDesc (l : List StoredRoadmap) : List StoredRoadmap :=
  l.insertionSort byCreatedAtDesc

/-- One Firestore `getDocs` call over the `roadmaps` collection filtered by
`where('userId', '==', userId)`.  With `useOrderBy` the query also carries
`orderBy('createdAt', 'desc')`, which throws an index error when the
secondary index is unavailable (`indexOk = false`). -/
def firestoreQuery (indexOk : Bool) (store : List StoredRoadmap) (userId : String)
    (useOrderBy : Bool) : Except Unit (List StoredRoadmap) :=
  if useOrderBy && !indexOk then Except.error ()
  else
    let filtered := store.filter (fun d => d.userId == userId)
    Except.ok (if useOrderBy then sortByCreatedAtDesc filtered else filtered)

/-- Source `getUserRoadmaps` (`roadmapservice.js` lines 245-296): try the query
with `orderBy`; on an index error retry without `orderBy`; then always
sort client-side by the same key.  Only the index error is modelled, so
the function is total: the missing index never fails the whole call. -/
def getUserRoadmaps (indexOk : Bool) (store : List StoredRoadmap)
    (userId : String) : List StoredRoadmap :=
  match firestoreQuery indexOk store userId true with
  | Except.ok docs => sortByCreatedAtDesc docs
  | Except.error _ =>
    match firestoreQuery indexOk store userId false with
    | Except.ok docs => sortByCreatedAtDesc docs
    | Except.error _ => []

/-- A tool as handled by `InterestSelector` (`InterestSelector.jsx`):
only `name` and `domain` participate in the selection logic. -/
structure SelTool where
  name : String
  domain : Option String
deriving DecidableEq, Repr

/-- The `toolId` template of `toggleTool`:
a backtick-template over name and domain, with `tool.domain || ''`. -/
def selToolId (t : SelTool) : String := t.name ++ "-" ++ t.domain.getD ""

/-- Source `toggleTool` (`InterestSelector.jsx` lines 101-114): removes an already
selected tool, refuses to grow the selection past 8, otherwise appends the
tool with `domain: tool.domain || 'unknown'`. -/
def toggleTool (prev : List SelTool) (tool : SelTool) : List SelTool :=
  if prev.any (fun t => selToolId t == selToolId tool) then
    prev.filter (fun t => !(selToolId t == selToolId tool))
  else if 8 ≤ prev.length then prev
  else prev ++ [{ tool with domain := some (jsOrStr tool.domain "unknown") }]

/-- The combined state of the wizard: `App.jsx`'s `step`, `profile`,
`selectedTools` and `roadmap` state, plus the `selectedTools` local state
of the currently mounted `InterestSelector` (reset to `[]` whenever the
component mounts on entering step 2).  Profiles and roadmap payloads are
opaque strings. -/
structure AppState where
  step : Nat
  profile : Option String
  selectedTools : List SelTool
  roadmap : Option String
  selectorTools : List SelTool
deriving DecidableEq, Repr

/-- The user-visible events that drive the wizard. -/
inductive AppEvent where
  | resumeComplete (profile : String)
  | selectorToggle (tool : SelTool)
  | generateClick
  | prefsSuccess (roadmap : String)
  | prefsFailure
  | back
  | startOver
deriving DecidableEq, Repr

/-- The initial `useState` values of `App.jsx`. -/
def initAppState : AppState :=
  { step := 1, profile := none, selectedTools := [], roadmap := none
  , selectorTools := [] }

/-- One transition of the wizard.  Each event is guarded by the render
condition under which its handler is reachable in `App.jsx`:
`ResumeUpload` renders at step 1; `InterestSelector` at step 2 with a
profile (its `handleGenerate` calls `onSelect` only with at least 2 tools);
`TimeCommitment` at step 3 with a non-empty selection; `handleBack` renders
at steps 2 and 3; `handleStartOver` renders whenever `step > 1`. -/
def appStep (e : AppEvent) (s : AppState) : AppState :=
  match e with
  | AppEvent.resumeComplete p =>
    if s.step = 1 then { s with profile := some p, step := 2, selectorTools := [] }
    else s
  | AppEvent.selectorToggle t =>
    if s.step = 2 ∧ s.profile ≠ none then
      { s with selectorTools := toggleTool s.selectorTools t }
    else s
  | AppEvent.generateClick =>
    if s.step = 2 ∧ s.profile ≠ none ∧ 2 ≤ s.selectorTools.length then
      { s with selectedTools := s.selectorTools, step := 3 }
    else s
  | AppEvent.prefsSuccess r =>
    if s.step = 3 ∧ s.selectedTools ≠ [] then { s with roadmap := some r, step := 4 }
    else s
  | AppEvent.prefsFailure => s
  | AppEvent.back =>
    if s.step = 2 then { s with step := 1 }
    else if s.step = 3 then { s with step := 2, selectorTools := [] }
    else s
  | AppEvent.startOver =>
    if 1 < s.step then initAppState else s

/-- The states the wizard can actually reach from the initial render. -/
inductive ReachableApp : AppState → Prop where
  | init : ReachableApp initAppState
  | next {s : AppState} (e : AppEvent) : ReachableApp s → ReachableApp (appStep e s)

/-- C2: For every roadmap `r`, the preview progress computation used for
display and the persisted progress computation used when writing back
return the same value: `calculateProgress` applied to `r` equals
`calculateProgressFromRoadmap` applied to `r`. -/
theorem claim_C2_preview_equals_persisted (r : RoadmapDoc) :
    calculateProgress (some r) = calculateProgressFromRoadmap r := by
  cases h : r.phases with
  | none =>
    simp [calculateProgress, calculateProgressFromRoadmap, h, cpfrTotals]
  | some ps =>
    simp only [calculateProgress, calculateProgressFromRoadmap, h, Option.getD_some]
    rfl

/-- C1 (counterexample): on a flat-tool roadmap with an empty
`selectedTools`, the progress computation divides by zero and yields a
non-finite JS number (embedded `none`), not the integer `0` the claim
requires. -/
theorem claim_C1_counterexample :
    flatProgress (∅ : Finset String) ([] : List FlatTool) = none ∧
    flatProgress (∅ : Finset String) ([] : List FlatTool) ≠ some 0 := by
  constructor
  · rfl
  · intro h
    simp [flatProgress] at h

/-- C1 (amended): the phase-based `calculateProgressFromRoadmap` always
returns an integer in `[0, 100]` and returns `0` whenever the total
checklist-item count is `0`; the flat-tool computation returns an integer
in `[0, 100]` whenever `selectedTools` is non-empty and the completed set
is no larger than the selection, but on an empty `selectedTools` it
produces a non-finite value (`none`), not `0`. -/
theorem claim_C1_progress_bounds :
    (∀ r : RoadmapDoc,
      0 ≤ calculateProgressFromRoadmap r ∧
      calculateProgressFromRoadmap r ≤ 100 ∧
      ((cpfrTotals (r.phases.getD [])).1 = 0 → calculateProgressFromRoadmap r = 0)) ∧
    (∀ (completed : Finset String) (selected : List FlatTool),
      selected ≠ [] → completed.card ≤ selected.length →
      ∃ z : Int, flatProgress completed selected = some z ∧ 0 ≤ z ∧ z ≤ 100) ∧
    (∀ completed : Finset String, flatProgress completed [] = none) := by
  refine ⟨fun r => ?_, fun completed selected hne hcard => ?_, fun completed => rfl⟩
  · unfold calculateProgressFromRoadmap
    by_cases h : 0 < (cpfrTotals (r.phases.getD [])).1
    · have hb := jsRound_ratio_bounds (cpfrTotals (r.phases.getD [])).2
        (cpfrTotals (r.phases.getD [])).1 (cpfrTotals_le _) h
      rw [if_pos h]
      exact ⟨hb.1, hb.2, fun h0 => absurd h0 (Nat.pos_iff_ne_zero.mp h)⟩
    · rw [if_neg h]
      exact ⟨le_refl 0, by norm_num, fun _ => rfl⟩
  · have hlen : selected.length ≠ 0 := by
      intro h0
      exact hne (List.length_eq_zero.mp h0)
    have hpos : 0 < selected.length := Nat.pos_of_ne_zero hlen
    refine ⟨jsRound ((completed.card : ℚ) / (selected.length : ℚ) * 100), ?_, ?_, ?_⟩
    · unfold flatProgress
      rw [if_neg hlen]
    · exact (jsRound_ratio_bounds _ _ hcard hpos).1
    · exact (jsRound_ratio_bounds _ _ hcard hpos).2

/-- C1 (witness): concrete evaluations of the amended claim — a roadmap
with no items has progress `0`, and one completed tool out of two yields a
value in bounds. -/
theorem claim_C1_witness :
    calculateProgressFromRoadmap ⟨some []⟩ = 0 ∧
    (∃ z : Int, flatProgress ({"Git"} : Finset String) [⟨"Git"⟩, ⟨"Docker"⟩] = some z ∧
      0 ≤ z ∧ z ≤ 100) :=
  ⟨(claim_C1_progress_bounds.1 ⟨some []⟩).2.2 (by decide),
   claim_C1_progress_bounds.2.1 {"Git"} [⟨"Git"⟩, ⟨"Docker"⟩] (by decide) (by decide)⟩

-- A phase whose objectives are untouched by the item map is returned
-- unchanged by the per-phase update.
theorem toggleObjPhase_id (phaseId objectiveId : String) (p : Phase)
    (h : p.id = phaseId → ∀ o ∈ p.learning_objectives, o.id ≠ objectiveId) :
    toggleObjPhase phaseId objectiveId p = p := by
  unfold toggleObjPhase
  by_cases hid : p.id = phaseId
  · rw [if_pos hid]
    have hmap : p.learning_objectives.map (toggleObjItem objectiveId) =
        p.learning_objectives := by
      have hpt : ∀ o ∈ p.learning_objectives, toggleObjItem objectiveId o = o := by
        intro o ho
        unfold toggleObjItem
        rw [if_neg (h hid o ho)]
      exact (List.map_congr_left hpt).trans (List.map_id _)
    rw [hmap]
  · rw [if_neg hid]

theorem toggleMsPhase_id (phaseId milestoneId : String) (p : Phase)
    (h : p.id = phaseId → ∀ m ∈ p.milestones, m.id ≠ milestoneId) :
    toggleMsPhase phaseId milestoneId p = p := by
  unfold toggleMsPhase
  by_cases hid : p.id = phaseId
  · rw [if_pos hid]
    have hmap : p.milestones.map (toggleMsItem milestoneId) = p.milestones := by
      have hpt : ∀ m ∈ p.milestones, toggleMsItem milestoneId m = m := by
        intro m hm
        unfold toggleMsItem
        rw [if_neg (h hid m hm)]
      exact (List.map_congr_left hpt).trans (List.map_id _)
    rw [hmap]
  · rw [if_neg hid]

/-- C6: toggling a `(phaseId, itemId)` pair that matches no phase or no
checklist item of the roadmap returns a roadmap equal to the input (the
embedded operations are total, so no error is raised). -/
theorem claim_C6_unknown_toggle_noop (r : Roadmap) (phaseId itemId : String) :
    ((∀ p ∈ r.phases, p.id = phaseId → ∀ o ∈ p.learning_objectives, o.id ≠ itemId) →
      toggleObjective r phaseId itemId = r) ∧
    ((∀ p ∈ r.phases, p.id = phaseId → ∀ m ∈ p.milestones, m.id ≠ itemId) →
      toggleMilestone r phaseId itemId = r) := by
  constructor
  · intro h
    unfold toggleObjective
    have hmap : r.phases.map (toggleObjPhase phaseId itemId) = r.phases := by
      have hpt : ∀ p ∈ r.phases, toggleObjPhase phaseId itemId p = p :=
        fun p hp => toggleObjPhase_id phaseId itemId p (h p hp)
      exact (List.map_congr_left hpt).trans (List.map_id _)
    rw [hmap]
  · intro h
    unfold toggleMilestone
    have hmap : r.phases.map (toggleMsPhase phaseId itemId) = r.phases := by
      have hpt : ∀ p ∈ r.phases, toggleMsPhase phaseId itemId p = p :=
        fun p hp => toggleMsPhase_id phaseId itemId p (h p hp)
      exact (List.map_congr_left hpt).trans (List.map_id _)
    rw [hmap]

/-- A sample normalized roadmap used to evaluate the toggle claims. -/
def sampleRoadmap : Roadmap :=
  { id := "rm-1", status := "active", progress := 0
  , phases :=
    [ { id := "phase-1", phase_number := 1, title := "Git", duration_weeks := 2
      , tools_covered := ["Git"]
      , learning_objectives :=
          [ { id := "obj-1", text := "Learn branching", completed := false }
          , { id := "obj-2", text := "Learn rebasing", completed := true } ]
      , milestones := [ { id := "ms-1", text := "First PR", completed := false } ]
      , expanded := true }
    , { id := "phase-2", phase_number := 2, title := "Docker", duration_weeks := 4
      , tools_covered := ["Docker"]
      , learning_objectives :=
          [ { id := "obj-3", text := "Write a Dockerfile", completed := false } ]
      , milestones := [ { id := "ms-2", text := "Ship an image", completed := false } ]
      , expanded := false } ] }

/-- C6 (witness): toggling a pair that exists nowhere in the sample
roadmap leaves it unchanged, for objectives and milestones alike. -/
theorem claim_C6_witness :
    toggleObjective sampleRoadmap "nonexistent-phase" "nonexistent-item" =
      sampleRoadmap ∧
    toggleMilestone sampleRoadmap "nonexistent-phase" "nonexistent-item" =
      sampleRoadmap :=
  ⟨(claim_C6_unknown_toggle_noop sampleRoadmap "nonexistent-phase" "nonexistent-item").1
      (by decide),
   (claim_C6_unknown_toggle_noop sampleRoadmap "nonexistent-phase" "nonexistent-item").2
      (by decide)⟩

-- Flipping the same item twice restores it exactly.
theorem toggleObjItem_involutive (objectiveId : String) (o : ChecklistItem) :
    toggleObjItem objectiveId (toggleObjItem objectiveId o) = o := by
  cases o with
  | mk i t c =>
    unfold toggleObjItem
    by_cases h : i = objectiveId <;> simp [h, Bool.not_not]

theorem toggleMsItem_involutive (milestoneId : String) (m : ChecklistItem) :
    toggleMsItem milestoneId (toggleMsItem milestoneId m) = m := by
  cases m with
  | mk i t c =>
    unfold toggleMsItem
    by_cases h : i = milestoneId <;> simp [h, Bool.not_not]

theorem toggleObjPhase_involutive (phaseId objectiveId : String) (p : Phase) :
    toggleObjPhase phaseId objectiveId (toggleObjPhase phaseId objectiveId p) = p := by
  have hmap : ∀ l : List ChecklistItem,
      (l.map (toggleObjItem objectiveId)).map (toggleObjItem objectiveId) = l := by
    intro l
    rw [List.map_map]
    have hpt : ∀ o ∈ l, (toggleObjItem objectiveId ∘ toggleObjItem objectiveId) o = o :=
      fun o _ => toggleObjItem_involutive objectiveId o
    exact (List.map_congr_left hpt).trans (List.map_id _)
  cases p with
  | mk i n ti d tc lo ms ex =>
    unfold toggleObjPhase
    by_cases h : i = phaseId <;> simp [h, hmap]

theorem toggleMsPhase_involutive (phaseId milestoneId : String) (p : Phase) :
    toggleMsPhase phaseId milestoneId (toggleMsPhase phaseId milestoneId p) = p := by
  have hmap : ∀ l : List ChecklistItem,
      (l.map (toggleMsItem milestoneId)).map (toggleMsItem milestoneId) = l := by
    intro l
    rw [List.map_map]
    have hpt : ∀ m ∈ l, (toggleMsItem milestoneId ∘ toggleMsItem milestoneId) m = m :=
      fun m _ => toggleMsItem_involutive milestoneId m
    exact (List.map_congr_left hpt).trans (List.map_id _)
  cases p with
  | mk i n ti d tc lo ms ex =>
    unfold toggleMsPhase
    by_cases h : i = phaseId <;> simp [h, hmap]

theorem toggleObjective_involutive (r : Roadmap) (phaseId objectiveId : String) :
    toggleObjective (toggleObjective r phaseId objectiveId) phaseId objectiveId = r := by
  unfold toggleObjective
  simp only [List.map_map]
  have : r.phases.map
      (toggleObjPhase phaseId objectiveId ∘ toggleObjPhase phaseId objectiveId) =
      r.phases := by
    have hpt : ∀ p ∈ r.phases,
        (toggleObjPhase phaseId objectiveId ∘ toggleObjPhase phaseId objectiveId) p = p :=
      fun p _ => toggleObjPhase_involutive phaseId objectiveId p
    exact (List.map_congr_left hpt).trans (List.map_id _)
  rw [this]

theorem toggleMilestone_involutive (r : Roadmap) (phaseId milestoneId : String) :
    toggleMilestone (toggleMilestone r phaseId milestoneId) phaseId milestoneId = r := by
  unfold toggleMilestone
  simp only [List.map_map]
  have : r.phases.map
      (toggleMsPhase phaseId milestoneId ∘ toggleMsPhase phaseId milestoneId) =
      r.phases := by
    have hpt : ∀ p ∈ r.phases,
        (toggleMsPhase phaseId milestoneId ∘ toggleMsPhase phaseId milestoneId) p = p :=
      fun p _ => toggleMsPhase_involutive phaseId milestoneId p
    exact (List.map_congr_left hpt).trans (List.map_id _)
  rw [this]

/-- C8: for every valid `(phaseId, itemId)` pair — one naming an existing
phase and an existing checklist item in it — applying the toggle twice
restores the original roadmap exactly. -/
theorem claim_C8_double_toggle_restores (r : Roadmap) (phaseId itemId : String) :
    ((∃ p ∈ r.phases, p.id = phaseId ∧ ∃ o ∈ p.learning_objectives, o.id = itemId) →
      toggleObjective (toggleObjective r phaseId itemId) phaseId itemId = r) ∧
    ((∃ p ∈ r.phases, p.id = phaseId ∧ ∃ m ∈ p.milestones, m.id = itemId) →
      toggleMilestone (toggleMilestone r phaseId itemId) phaseId itemId = r) :=
  ⟨fun _ => toggleObjective_involutive r phaseId itemId,
   fun _ => toggleMilestone_involutive r phaseId itemId⟩

/-- C8 (witness): double-toggling the existing objective `obj-1` and the
existing milestone `ms-2` of the sample roadmap restores it. -/
theorem claim_C8_witness :
    toggleObjective (toggleObjective sampleRoadmap "phase-1" "obj-1") "phase-1" "obj-1" =
      sampleRoadmap ∧
    toggleMilestone (toggleMilestone sampleRoadmap "phase-2" "ms-2") "phase-2" "ms-2" =
      sampleRoadmap :=
  ⟨(claim_C8_double_toggle_restores sampleRoadmap "phase-1" "obj-1").1 (by decide),
   (claim_C8_double_toggle_restores sampleRoadmap "phase-2" "ms-2").2 (by decide)⟩

/-- The effect of one objective toggle on a single `(phase id, item)`
entry of the traversal. -/
def toggleEntryObj (phaseId objectiveId : String) (q : String × ChecklistItem) :
    String × ChecklistItem :=
  if q.1 = phaseId ∧ q.2.id = objectiveId then
    (q.1, { q.2 with completed := !q.2.completed })
  else q

/-- The effect of one milestone toggle on a single `(phase id, item)`
entry of the traversal. -/
def toggleEntryMs (phaseId milestoneId : String) (q : String × ChecklistItem) :
    String × ChecklistItem :=
  if q.1 = phaseId ∧ q.2.id = milestoneId then
    (q.1, { q.2 with completed := !q.2.completed })
  else q

theorem zip_map_self {α : Type} (l : List α) (f : α → α) :
    List.zip l (l.map f) = l.map (fun a => (a, f a)) := by
  induction l with
  | nil => rfl
  | cons x xs ih => simp [ih]

-- Per-phase form of the master toggle equation for objectives.
theorem phaseEntries_toggleObj (phaseId objectiveId : String) (p : Phase) :
    (toggleObjPhase phaseId objectiveId p).learning_objectives.map
      (fun o => ((toggleObjPhase phaseId objectiveId p).id, o)) =
    (p.learning_objectives.map (fun o => (p.id, o))).map
      (toggleEntryObj phaseId objectiveId) := by
  unfold toggleObjPhase
  by_cases h : p.id = phaseId
  · rw [if_pos h]
    simp only [List.map_map]
    apply List.map_congr_left
    intro o _
    unfold toggleObjItem toggleEntryObj
    by_cases hio : o.id = objectiveId <;> simp [h, hio]
  · rw [if_neg h]
    simp only [List.map_map]
    apply List.map_congr_left
    intro o _
    unfold toggleEntryObj
    simp [h]

theorem phaseEntries_toggleMs (phaseId milestoneId : String) (p : Phase) :
    (toggleMsPhase phaseId milestoneId p).milestones.map
      (fun o => ((toggleMsPhase phaseId milestoneId p).id, o)) =
    (p.milestones.map (fun o => (p.id, o))).map
      (toggleEntryMs phaseId milestoneId) := by
  unfold toggleMsPhase
  by_cases h : p.id = phaseId
  · rw [if_pos h]
    simp only [List.map_map]
    apply List.map_congr_left
    intro o _
    unfold toggleMsItem toggleEntryMs
    by_cases hio : o.id = milestoneId <;> simp [h, hio]
  · rw [if_neg h]
    simp only [List.map_map]
    apply List.map_congr_left
    intro o _
    unfold toggleEntryMs
    simp [h]

-- Master equation: the objective traversal of a toggled roadmap is the
-- pointwise-toggled traversal of the original.
theorem objEntries_toggle (r : Roadmap) (phaseId objectiveId : String) :
    objEntries (toggleObjective r phaseId objectiveId) =
    (objEntries r).map (toggleEntryObj phaseId objectiveId) := by
  unfold objEntries toggleObjective
  show (r.phases.map (toggleObjPhase phaseId objectiveId)).flatMap _ = _
  induction r.phases with
  | nil => rfl
  | cons p ps ih =>
    simp only [List.map_cons, List.flatMap_cons, List.map_append, ih]
    congr 1
    exact phaseEntries_toggleObj phaseId objectiveId p

theorem msEntries_toggle (r : Roadmap) (phaseId milestoneId : String) :
    msEntries (toggleMilestone r phaseId milestoneId) =
    (msEntries r).map (toggleEntryMs phaseId milestoneId) := by
  unfold msEntries toggleMilestone
  show (r.phases.map (toggleMsPhase phaseId milestoneId)).flatMap _ = _
  induction r.phases with
  | nil => rfl
  | cons p ps ih =>
    simp only [List.map_cons, List.flatMap_cons, List.map_append, ih]
    congr 1
    exact phaseEntries_toggleMs phaseId milestoneId p

theorem countP_map_general {α β : Type} (l : List α) (f : α → β) (p : β → Bool) :
    (l.map f).countP p = l.countP (fun a => p (f a)) := by
  rw [List.countP_map]
  rfl

-- Erasing the objective list commutes with the per-phase toggle: all other
-- phase fields are untouched.
theorem toggleObjPhase_frame (phaseId objectiveId : String) (p : Phase) :
    { toggleObjPhase phaseId objectiveId p with learning_objectives := [] } =
    { p with learning_objectives := [] } := by
  unfold toggleObjPhase
  by_cases h : p.id = phaseId <;> simp [h]

theorem toggleMsPhase_frame (phaseId milestoneId : String) (p : Phase) :
    { toggleMsPhase phaseId milestoneId p with milestones := [] } =
    { p with milestones := [] } := by
  unfold toggleMsPhase
  by_cases h : p.id = phaseId <;> simp [h]

/-- C7: when a `(phaseId, itemId)` pair matches exactly one checklist item,
toggling flips the `completed` field of exactly that item: the traversal
keeps every phase assignment, item id and item text (first conjunct), the
new `completed` of each entry is the old one negated exactly on the match
(second), exactly one entry's `completed` differs (third), every phase
field other than the toggled list is unchanged (fourth), and every roadmap
field other than `phases` is unchanged (fifth); symmetrically for
milestones. -/
theorem claim_C7_toggle_locality (r : Roadmap) (phaseId itemId : String) :
    (objMatchCount r phaseId itemId = 1 →
      ((objEntries (toggleObjective r phaseId itemId)).map
          (fun q => (q.1, q.2.id, q.2.text)) =
        (objEntries r).map (fun q => (q.1, q.2.id, q.2.text))) ∧
      (∀ z ∈ List.zip (objEntries r) (objEntries (toggleObjective r phaseId itemId)),
        z.2.2.completed =
          if z.1.1 = phaseId ∧ z.1.2.id = itemId then !z.1.2.completed
          else z.1.2.completed) ∧
      ((List.zip (objEntries r) (objEntries (toggleObjective r phaseId itemId))).countP
          (fun z => decide (z.1.2.completed ≠ z.2.2.completed)) = 1) ∧
      ((toggleObjective r phaseId itemId).phases.map
          (fun p => { p with learning_objectives := [] }) =
        r.phases.map (fun p => { p with learning_objectives := [] })) ∧
      ({ toggleObjective r phaseId itemId with phases := [] } =
        { r with phases := [] })) ∧
    (msMatchCount r phaseId itemId = 1 →
      ((msEntries (toggleMilestone r phaseId itemId)).map
          (fun q => (q.1, q.2.id, q.2.text)) =
        (msEntries r).map (fun q => (q.1, q.2.id, q.2.text))) ∧
      (∀ z ∈ List.zip (msEntries r) (msEntries (toggleMilestone r phaseId itemId)),
        z.2.2.completed =
          if z.1.1 = phaseId ∧ z.1.2.id = itemId then !z.1.2.completed
          else z.1.2.completed) ∧
      ((List.zip (msEntries r) (msEntries (toggleMilestone r phaseId itemId))).countP
          (fun z => decide (z.1.2.completed ≠ z.2.2.completed)) = 1) ∧
      ((toggleMilestone r phaseId itemId).phases.map
          (fun p => { p with milestones := [] }) =
        r.phases.map (fun p => { p with milestones := [] })) ∧
      ({ toggleMilestone r phaseId itemId with phases := [] } =
        { r with phases := [] })) := by
  constructor
  · intro h
    refine ⟨?_, ?_, ?_, ?_, rfl⟩
    · rw [objEntries_toggle, List.map_map]
      apply List.map_congr_left
      intro q _
      show (fun q => (q.1, q.2.id, q.2.text)) (toggleEntryObj phaseId itemId q) = _
      unfold toggleEntryObj
      by_cases hc : q.1 = phaseId ∧ q.2.id = itemId <;> simp [hc]
    · intro z hz
      rw [objEntries_toggle, zip_map_self] at hz
      rcases List.mem_map.mp hz with ⟨q, _, rfl⟩
      show (toggleEntryObj phaseId itemId q).2.completed = _
      unfold toggleEntryObj
      by_cases hc : q.1 = phaseId ∧ q.2.id = itemId <;> simp [hc]
    · rw [objEntries_toggle, zip_map_self, countP_map_general]
      rw [show ((objEntries r).countP (fun a =>
          decide ((a, toggleEntryObj phaseId itemId a).1.2.completed ≠
            (a, toggleEntryObj phaseId itemId a).2.2.completed))) =
          objMatchCount r phaseId itemId from ?_]
      · exact h
      · unfold objMatchCount
        apply List.countP_congr
        intro q _
        by_cases hc : q.1 = phaseId ∧ q.2.id = itemId
        · simp only [toggleEntryObj, if_pos hc]
          cases hq : q.2.completed <;> simp [hc, hq]
        · simp [toggleEntryObj, hc]
    · unfold toggleObjective
      simp only [List.map_map]
      apply List.map_congr_left
      intro p _
      exact toggleObjPhase_frame phaseId itemId p
  · intro h
    refine ⟨?_, ?_, ?_, ?_, rfl⟩
    · rw [msEntries_toggle, List.map_map]
      apply List.map_congr_left
      intro q _
      show (fun q => (q.1, q.2.id, q.2.text)) (toggleEntryMs phaseId itemId q) = _
      unfold toggleEntryMs
      by_cases hc : q.1 = phaseId ∧ q.2.id = itemId <;> simp [hc]
    · intro z hz
      rw [msEntries_toggle, zip_map_self] at hz
      rcases List.mem_map.mp hz with ⟨q, _, rfl⟩
      show (toggleEntryMs phaseId itemId q).2.completed = _
      unfold toggleEntryMs
      by_cases hc : q.1 = phaseId ∧ q.2.id = itemId <;> simp [hc]
    · rw [msEntries_toggle, zip_map_self, countP_map_general]
      rw [show ((msEntries r).countP (fun a =>
          decide ((a, toggleEntryMs phaseId itemId a).1.2.completed ≠
            (a, toggleEntryMs phaseId itemId a).2.2.completed))) =
          msMatchCount r phaseId itemId from ?_]
      · exact h
      · unfold msMatchCount
        apply List.countP_congr
        intro q _
        by_cases hc : q.1 = phaseId ∧ q.2.id = itemId
        · simp only [toggleEntryMs, if_pos hc]
          cases hq : q.2.completed <;> simp [hc, hq]
        · simp [toggleEntryMs, hc]
    · unfold toggleMilestone
      simp only [List.map_map]
      apply List.map_congr_left
      intro p _
      exact toggleMsPhase_frame phaseId itemId p

/-- C7 (witness): on the sample roadmap, toggling objective `obj-1` in
`phase-1` (and milestone `ms-2` in `phase-2`) keeps every id and text and
changes the `completed` flag of exactly one traversal entry. -/
theorem claim_C7_witness :
    ((objEntries (toggleObjective sampleRoadmap "phase-1" "obj-1")).map
        (fun q => (q.1, q.2.id, q.2.text)) =
      (objEntries sampleRoadmap).map (fun q => (q.1, q.2.id, q.2.text))) ∧
    ((List.zip (objEntries sampleRoadmap)
        (objEntries (toggleObjective sampleRoadmap "phase-1" "obj-1"))).countP
        (fun z => decide (z.1.2.completed ≠ z.2.2.completed)) = 1) ∧
    ((List.zip (msEntries sampleRoadmap)
        (msEntries (toggleMilestone sampleRoadmap "phase-2" "ms-2"))).countP
        (fun z => decide (z.1.2.completed ≠ z.2.2.completed)) = 1) :=
  ⟨((claim_C7_toggle_locality sampleRoadmap "phase-1" "obj-1").1 (by decide)).1,
   ((claim_C7_toggle_locality sampleRoadmap "phase-1" "obj-1").1 (by decide)).2.2.1,
   ((claim_C7_toggle_locality sampleRoadmap "phase-2" "ms-2").2 (by decide)).2.2.1⟩

/-- C3 (counterexample): with selection order `[A, B]` and nothing yet
completed, toggling `B` persists `currentTool = "B"` — the tool at index
`completedArray.length` — although the first not-yet-completed tool in
selection order is `A`. -/
theorem claim_C3_counterexample :
    (handleToggleComplete [⟨"A"⟩, ⟨"B"⟩] (∅ : Finset String) "B").currentTool =
      some "B" ∧
    firstUncompletedName [⟨"A"⟩, ⟨"B"⟩]
      (handleToggleComplete [⟨"A"⟩, ⟨"B"⟩] (∅ : Finset String) "B").completedTools =
      some "A" ∧
    (handleToggleComplete [⟨"A"⟩, ⟨"B"⟩] (∅ : Finset String) "B").currentTool ≠
      firstUncompletedName [⟨"A"⟩, ⟨"B"⟩]
        (handleToggleComplete [⟨"A"⟩, ⟨"B"⟩] (∅ : Finset String) "B").completedTools := by
  refine ⟨?_, ?_, ?_⟩ <;> decide

theorem find?_congr_mem {α : Type} (l : List α) (p q : α → Bool)
    (h : ∀ a ∈ l, p a = q a) : l.find? p = l.find? q := by
  induction l with
  | nil => rfl
  | cons x xs ih =>
    have hx := h x (List.mem_cons_self x xs)
    by_cases hpx : p x = true
    · rw [List.find?_cons_of_pos _ hpx, List.find?_cons_of_pos _ (hx ▸ hpx)]
    · rw [List.find?_cons_of_neg _ hpx, List.find?_cons_of_neg _ (hx ▸ hpx)]
      exact ih (fun a ha => h a (List.mem_cons_of_mem x ha))

-- When the completed set is exactly the first `k` names of a duplicate-free
-- selection, the spec's first-uncompleted tool is the tool at index `k`.
theorem firstUncompleted_prefix (sel : List FlatTool) (k : Nat)
    (hnd : (sel.map FlatTool.name).Nodup) :
    firstUncompletedName sel (completedPrefixSet sel k) =
    (sel[k]?).map FlatTool.name := by
  induction sel generalizing k with
  | nil => simp [firstUncompletedName]
  | cons t rest ih =>
    have hnd' : (rest.map FlatTool.name).Nodup := (List.nodup_cons.mp (by simpa using hnd)).2
    have htn : t.name ∉ rest.map FlatTool.name := (List.nodup_cons.mp (by simpa using hnd)).1
    cases k with
    | zero =>
      unfold firstUncompletedName completedPrefixSet
      simp
    | succ k =>
      have hS : completedPrefixSet (t :: rest) (k + 1) =
          insert t.name (completedPrefixSet rest k) := by
        unfold completedPrefixSet
        simp
      unfold firstUncompletedName
      rw [hS]
      rw [List.find?_cons]
      have hd : decide (t.name ∉ insert t.name (completedPrefixSet rest k)) = false := by
        simp
      simp only [hd]
      have hcong : rest.find?
          (fun x => decide (x.name ∉ insert t.name (completedPrefixSet rest k))) =
          rest.find? (fun x => decide (x.name ∉ completedPrefixSet rest k)) := by
        apply find?_congr_mem
        intro a ha
        have hne : a.name ≠ t.name := by
          intro he
          exact htn (he ▸ List.mem_map_of_mem FlatTool.name ha)
        simp [Finset.mem_insert, hne]
      rw [hcong]
      have := ih k hnd'
      unfold firstUncompletedName at this
      rw [this]
      simp

-- The completed-prefix set of a duplicate-free selection has exactly
-- `min k length` elements.
theorem completedPrefixSet_card (sel : List FlatTool) (k : Nat)
    (hnd : (sel.map FlatTool.name).Nodup) :
    (completedPrefixSet sel k).card = min k sel.length := by
  unfold completedPrefixSet
  have hsub : ((sel.take k).map FlatTool.name).Sublist (sel.map FlatTool.name) :=
    (List.take_sublist k sel).map FlatTool.name
  rw [List.toFinset_card_of_nodup (hsub.nodup hnd)]
  rw [List.length_map, List.length_take]

-- The code's pointer is, unconditionally, the tool at the index given by
-- the completed count (the out-of-range lookup is `none` on both sides).
theorem currentToolPointer_eq_index (sel : List FlatTool) (c : Finset String) :
    currentToolPointer sel c = (sel[c.card]?).map FlatTool.name := by
  unfold currentToolPointer
  by_cases h : c.card < sel.length
  · rw [if_pos h]
  · rw [if_neg h]
    rw [List.getElem?_eq_none (Nat.le_of_not_lt h)]
    rfl

/-- C3 (amended): the persisted `currentTool` is the tool at the index
equal to the new completed count (`none` when the count is out of range),
not in general the first not-yet-completed tool; the two coincide whenever
the completed set is exactly a prefix of the (duplicate-free) selection
order, i.e. when tools were completed in order. -/
theorem claim_C3_current_tool :
    (∀ (selectedTools : List FlatTool) (completedItems : Finset String)
        (toolName : String),
      (handleToggleComplete selectedTools completedItems toolName).currentTool =
        (selectedTools[(handleToggleComplete selectedTools completedItems
            toolName).completedTools.card]?).map FlatTool.name) ∧
    (∀ (selectedTools : List FlatTool) (k : Nat),
      (selectedTools.map FlatTool.name).Nodup →
      currentToolPointer selectedTools (completedPrefixSet selectedTools k) =
        firstUncompletedName selectedTools (completedPrefixSet selectedTools k)) := by
  constructor
  · intro sel c tn
    exact currentToolPointer_eq_index sel _
  · intro sel k hnd
    rw [currentToolPointer_eq_index, firstUncompleted_prefix sel k hnd]
    by_cases h : k < sel.length
    · have : min k sel.length = k := Nat.min_eq_left (Nat.le_of_lt h)
      rw [completedPrefixSet_card sel k hnd, this]
    · have hlen : sel.length ≤ k := Nat.le_of_not_lt h
      have : min k sel.length = sel.length := Nat.min_eq_right hlen
      rw [completedPrefixSet_card sel k hnd, this]
      rw [List.getElem?_eq_none hlen, List.getElem?_eq_none (le_refl _)]

/-- C3 (witness): completing `[A, B]` in order — after completing `A`, the
pointer and the first-uncompleted tool agree on `B`. -/
theorem claim_C3_witness :
    (handleToggleComplete [⟨"A"⟩, ⟨"B"⟩] (∅ : Finset String) "A").currentTool =
      ([(⟨"A"⟩ : FlatTool), ⟨"B"⟩][(handleToggleComplete [⟨"A"⟩, ⟨"B"⟩]
          (∅ : Finset String) "A").completedTools.card]?).map FlatTool.name ∧
    currentToolPointer [⟨"A"⟩, ⟨"B"⟩] (completedPrefixSet [⟨"A"⟩, ⟨"B"⟩] 1) =
      firstUncompletedName [⟨"A"⟩, ⟨"B"⟩] (completedPrefixSet [⟨"A"⟩, ⟨"B"⟩] 1) :=
  ⟨claim_C3_current_tool.1 [⟨"A"⟩, ⟨"B"⟩] ∅ "A",
   claim_C3_current_tool.2 [⟨"A"⟩, ⟨"B"⟩] 1 (by decide)⟩

/-- C4 (counterexample): on a stored document with neither a `phases` field
nor a `learningResources` field — e.g. a flat-tool roadmap — the
normalization reaches `roadmapData.phases.map(...)` with `phases` still
`undefined` and throws a `TypeError` (embedded `none`) instead of
substituting a default. -/
theorem claim_C4_counterexample :
    normalizeRoadmap (fun _ s => s)
      { phases := none, learningResources := none } = none := rfl

theorem resolvePhases_some_phases (r : RawRoadmap) (ps : List RawPhase)
    (hp : r.phases = some ps) : (resolvePhases r).isSome = true := by
  unfold resolvePhases
  by_cases hj : jsEmptyPhases r.phases = true
  · rw [if_pos hj]
    cases hlr : r.learningResources with
    | none => rw [hp]; rfl
    | some lrs =>
      show (if 0 < lrs.length then
        some (lrs.enum.map (fun p => synthPhase p.1 p.2)) else r.phases).isSome = true
      by_cases h0 : 0 < lrs.length
      · rw [if_pos h0]; rfl
      · rw [if_neg h0, hp]; rfl
  · rw [if_neg hj, hp]; rfl

/-- C4 (amended): normalization never raises provided the input document
has a `phases` field (even an empty one) or a non-empty `learningResources`
list; with `phases` absent and `learningResources` absent or empty, the
unguarded `roadmapData.phases.map(...)` raises a `TypeError`. -/
theorem claim_C4_normalizer_total (gen : Nat → String → String) (r : RawRoadmap)
    (h : r.phases ≠ none ∨ ∃ lrs, r.learningResources = some lrs ∧ lrs ≠ []) :
    (normalizeRoadmap gen r).isSome = true := by
  have hres : (resolvePhases r).isSome = true := by
    rcases h with hp | ⟨lrs, hlr, hne⟩
    · obtain ⟨ps, hps⟩ := Option.ne_none_iff_exists'.mp hp
      exact resolvePhases_some_phases r ps hps
    · unfold resolvePhases
      by_cases hj : jsEmptyPhases r.phases = true
      · rw [if_pos hj, hlr]
        show (if 0 < lrs.length then
          some (lrs.enum.map (fun p => synthPhase p.1 p.2)) else r.phases).isSome = true
        rw [if_pos (List.length_pos.mpr hne)]
        rfl
      · rw [if_neg hj]
        cases hps : r.phases with
        | none => exact absurd (by simp [jsEmptyPhases, hps]) hj
        | some ps => rfl
  unfold normalizeRoadmap
  obtain ⟨ps, hps⟩ := Option.isSome_iff_exists.mp hres
  rw [hps]
  rfl

/-- C4 (witness): a document with empty `phases` and no resources, and a
document with no `phases` but one resource, both normalize to a value. -/
theorem claim_C4_witness :
    (normalizeRoadmap (fun _ s => s)
      { phases := some [], learningResources := none }).isSome = true ∧
    (normalizeRoadmap (fun _ s => s)
      { phases := none
      , learningResources :=
          some [⟨some "Git", none, some 2, none, none, none⟩] }).isSome = true :=
  ⟨claim_C4_normalizer_total (fun _ s => s) _ (Or.inl (by simp)),
   claim_C4_normalizer_total (fun _ s => s) _ (Or.inr ⟨_, rfl, by simp⟩)⟩

-- A second wrap pass leaves an already-wrapped entry unchanged.
theorem wrapEntry_idem (g g2 : Nat → String → String) (k k2 : Nat) (e : RawEntry) :
    wrapEntry g2 k2 (wrapEntry g k e) = wrapEntry g k e := by
  cases e <;> rfl

theorem wrapPhase_idem (g g2 : Nat → String → String) (p : RawPhase) :
    wrapPhase g2 (wrapPhase g p) = wrapPhase g p := by
  cases p with
  | mk i n ti d tc lo ms ex =>
    unfold wrapPhase
    simp only [Option.getD_some, List.map_map]
    have h1 : (lo.getD []).map (wrapEntry g2 0 ∘ wrapEntry g 0) =
        (lo.getD []).map (wrapEntry g 0) :=
      List.map_congr_left fun e _ => wrapEntry_idem g g2 0 0 e
    have h2 : (ms.getD []).map (wrapEntry g2 1 ∘ wrapEntry g 1) =
        (ms.getD []).map (wrapEntry g 1) :=
      List.map_congr_left fun e _ => wrapEntry_idem g g2 1 1 e
    rw [h1, h2]

-- If the phase-resolution step returns an empty list, the input had no
-- usable `learningResources`.
theorem resolvePhases_nil_lr (x : RawRoadmap) (h : resolvePhases x = some []) :
    x.learningResources = none ∨ x.learningResources = some [] := by
  unfold resolvePhases at h
  by_cases hj : jsEmptyPhases x.phases = true
  · rw [if_pos hj] at h
    cases hlr : x.learningResources with
    | none => exact Or.inl rfl
    | some lrs =>
      rw [hlr] at h
      have h' : (if 0 < lrs.length then
          some (lrs.enum.map (fun p => synthPhase p.1 p.2)) else x.phases) = some [] := h
      by_cases h0 : 0 < lrs.length
      · exfalso
        rw [if_pos h0] at h'
        have hlen : (lrs.enum.map (fun p => synthPhase p.1 p.2)).length = lrs.length := by
          simp
        injection h' with h''
        rw [h''] at hlen
        simp at hlen
        omega
      · have hz : lrs = [] := List.length_eq_zero.mp (Nat.eq_zero_of_not_pos h0)
        subst hz
        exact Or.inr rfl
  · exfalso
    rw [if_neg hj] at h
    apply hj
    rw [h]
    rfl

/-- C5: normalization is idempotent — whenever a first pass (with any id
generator) produces a roadmap value `y`, a second pass (with any other id
generator) returns `y` unchanged: no re-wrapping of structured items, no
re-synthesis of phases, no new ids. -/
theorem claim_C5_normalize_idempotent (gen gen2 : Nat → String → String)
    (x y : RawRoadmap) (h : normalizeRoadmap gen x = some y) :
    normalizeRoadmap gen2 y = some y := by
  unfold normalizeRoadmap at h
  cases hres : resolvePhases x with
  | none => rw [hres] at h; exact absurd h (by simp)
  | some ps =>
    rw [hres] at h
    have hy : { x with phases := some (ps.map (wrapPhase gen)) } = y := by
      injection h
    by_cases hps : ps = []
    · subst hps
      subst hy
      have hlr := resolvePhases_nil_lr x hres
      have hresy : resolvePhases { x with phases := some ([] : List RawPhase) } =
          some [] := by
        unfold resolvePhases
        rcases hlr with hl | hl <;> simp [jsEmptyPhases, hl]
      unfold normalizeRoadmap
      rw [show ({ x with phases := some (List.map (wrapPhase gen) []) } : RawRoadmap) =
          { x with phases := some ([] : List RawPhase) } from rfl]
      rw [hresy]
      rfl
    · subst hy
      have hjf : jsEmptyPhases (some (ps.map (wrapPhase gen))) = false := by
        unfold jsEmptyPhases
        simp [List.length_eq_zero, hps]
      have hresy : resolvePhases { x with phases := some (ps.map (wrapPhase gen)) } =
          some (ps.map (wrapPhase gen)) := by
        unfold resolvePhases
        rw [show ({ x with phases := some (ps.map (wrapPhase gen)) } : RawRoadmap).phases =
            some (ps.map (wrapPhase gen)) from rfl]
        rw [hjf]
        simp
      unfold normalizeRoadmap
      rw [hresy]
      have hidem : (ps.map (wrapPhase gen)).map (wrapPhase gen2) =
          ps.map (wrapPhase gen) := by
        rw [List.map_map]
        exact List.map_congr_left fun p _ => wrapPhase_idem gen gen2 p
      have hgoal :
          ({ x with phases := some ((ps.map (wrapPhase gen)).map (wrapPhase gen2)) } :
            RawRoadmap) =
          { x with phases := some (ps.map (wrapPhase gen)) } := by
        rw [hidem]
      exact congrArg some hgoal

/-- A raw AI-generated roadmap: no `phases`, one learning resource. -/
def sampleRawRoadmap : RawRoadmap :=
  { phases := none
  , learningResources := some [⟨some "Git", none, some 2, none, none, none⟩] }

/-- The normalized form of `sampleRawRoadmap`. -/
def sampleNormalizedRoadmap : RawRoadmap :=
  { phases := some [⟨some "phase-1", some 1, some "Git", some 2, some [some "Git"],
      some [], some [], some true⟩]
  , learningResources := some [⟨some "Git", none, some 2, none, none, none⟩] }

/-- C5 (witness): one concrete normalization pass produces
`sampleNormalizedRoadmap`, and a second pass (with a different generator)
returns it unchanged. -/
theorem claim_C5_witness :
    normalizeRoadmap (fun _ s => s) sampleRawRoadmap = some sampleNormalizedRoadmap ∧
    normalizeRoadmap (fun _ s => "x-" ++ s) sampleNormalizedRoadmap =
      some sampleNormalizedRoadmap :=
  ⟨by decide,
   claim_C5_normalize_idempotent (fun _ s => s) (fun _ s => "x-" ++ s)
     sampleRawRoadmap sampleNormalizedRoadmap (by decide)⟩

/-- C9: for every owner and store state — with or without the server-side
sort index — `getUserRoadmaps` succeeds and returns exactly the owner's
roadmaps (a permutation of the ownership filter) sorted descending by
`createdAt`; the missing index only changes which query retrieves the
documents, never the outcome. -/
theorem claim_C9_list_by_owner (indexOk : Bool) (store : List StoredRoadmap)
    (userId : String) :
    (getUserRoadmaps indexOk store userId).Perm
      (store.filter (fun d => d.userId == userId)) ∧
    List.Sorted byCreatedAtDesc (getUserRoadmaps indexOk store userId) := by
  cases indexOk with
  | false =>
    constructor
    · show (sortByCreatedAtDesc (store.filter (fun d => d.userId == userId))).Perm _
      exact List.perm_insertionSort _ _
    · show List.Sorted byCreatedAtDesc (sortByCreatedAtDesc _)
      exact List.sorted_insertionSort _ _
  | true =>
    constructor
    · show (sortByCreatedAtDesc
        (sortByCreatedAtDesc (store.filter (fun d => d.userId == userId)))).Perm _
      exact (List.perm_insertionSort _ _).trans (List.perm_insertionSort _ _)
    · show List.Sorted byCreatedAtDesc (sortByCreatedAtDesc _)
      exact List.sorted_insertionSort _ _

theorem toggleTool_length_le (prev : List SelTool) (t : SelTool)
    (h : prev.length ≤ 8) : (toggleTool prev t).length ≤ 8 := by
  unfold toggleTool
  by_cases h1 : prev.any (fun x => selToolId x == selToolId t) = true
  · rw [if_pos h1]
    exact le_trans (List.length_filter_le _ _) h
  · rw [if_neg h1]
    by_cases h2 : 8 ≤ prev.length
    · rw [if_pos h2]
      exact h
    · rw [if_neg h2]
      rw [List.length_append]
      simp only [List.length_singleton]
      omega

/-- The inductive invariant of the wizard: the selector never holds more
than 8 tools, and from the `SetPreferences` step on, the committed
selection has between 2 and 8 tools. -/
def appInv (s : AppState) : Prop :=
  s.selectorTools.length ≤ 8 ∧
  ((s.step = 3 ∨ s.step = 4) →
    2 ≤ s.selectedTools.length ∧ s.selectedTools.length ≤ 8)

theorem appInv_init : appInv initAppState := by
  refine ⟨by simp [initAppState], ?_⟩
  intro hc
  rcases hc with hc | hc <;> simp [initAppState] at hc

theorem appInv_step (e : AppEvent) (s : AppState) (h : appInv s) :
    appInv (appStep e s) := by
  obtain ⟨hsel, hstep⟩ := h
  cases e with
  | resumeComplete p =>
    by_cases h1 : s.step = 1
    · simp only [appStep, if_pos h1]
      refine ⟨by simp, ?_⟩
      intro hc
      rcases hc with hc | hc <;> simp at hc
    · simp only [appStep, if_neg h1]
      exact ⟨hsel, hstep⟩
  | selectorToggle t =>
    by_cases h1 : s.step = 2 ∧ s.profile ≠ none
    · simp only [appStep, if_pos h1]
      exact ⟨toggleTool_length_le s.selectorTools t hsel, hstep⟩
    · simp only [appStep, if_neg h1]
      exact ⟨hsel, hstep⟩
  | generateClick =>
    by_cases h1 : s.step = 2 ∧ s.profile ≠ none ∧ 2 ≤ s.selectorTools.length
    · simp only [appStep, if_pos h1]
      exact ⟨hsel, fun _ => ⟨h1.2.2, hsel⟩⟩
    · simp only [appStep, if_neg h1]
      exact ⟨hsel, hstep⟩
  | prefsSuccess r =>
    by_cases h1 : s.step = 3 ∧ s.selectedTools ≠ []
    · simp only [appStep, if_pos h1]
      exact ⟨hsel, fun _ => hstep (Or.inl h1.1)⟩
    · simp only [appStep, if_neg h1]
      exact ⟨hsel, hstep⟩
  | prefsFailure =>
    exact ⟨hsel, hstep⟩
  | back =>
    by_cases h1 : s.step = 2
    · simp only [appStep, if_pos h1]
      refine ⟨hsel, ?_⟩
      intro hc
      rcases hc with hc | hc <;> simp at hc
    · by_cases h2 : s.step = 3
      · simp only [appStep, if_neg h1, if_pos h2]
        refine ⟨by simp, ?_⟩
        intro hc
        rcases hc with hc | hc <;> simp at hc
      · simp only [appStep, if_neg h1, if_neg h2]
        exact ⟨hsel, hstep⟩
  | startOver =>
    by_cases h1 : 1 < s.step
    · simp only [appStep, if_pos h1]
      exact appInv_init
    · simp only [appStep, if_neg h1]
      exact ⟨hsel, hstep⟩

theorem appInv_reachable (s : AppState) (h : ReachableApp s) : appInv s := by
  induction h with
  | init => exact appInv_init
  | next e _ ih => exact appInv_step e _ ih

/-- C10: in every reachable wizard state, being at the `SetPreferences`
step (step 3) implies the committed selection holds between 2 and 8 tools;
moreover the selection toggle never grows a selection of at most 8 past 8,
and the transition out of `SelectTools` is a no-op when fewer than 2 tools
are selected. -/
theorem claim_C10_selection_bounds (s : AppState) (h : ReachableApp s) :
    (s.step = 3 → 2 ≤ s.selectedTools.length ∧ s.selectedTools.length ≤ 8) ∧
    (∀ (prev : List SelTool) (t : SelTool), prev.length ≤ 8 →
      (toggleTool prev t).length ≤ 8) ∧
    (∀ s2 : AppState, s2.step = 2 → s2.selectorTools.length < 2 →
      appStep AppEvent.generateClick s2 = s2) := by
  refine ⟨fun h3 => (appInv_reachable s h).2 (Or.inl h3),
    fun prev t hp => toggleTool_length_le prev t hp,
    fun s2 _ hlt => ?_⟩
  simp only [appStep]
  rw [if_neg]
  intro hc
  exact absurd hc.2.2 (Nat.not_le_of_lt hlt)

/-- The wizard state after uploading a résumé, selecting two tools and
clicking Generate Roadmap. -/
def sampleWizardState : AppState :=
  appStep AppEvent.generateClick
    (appStep (AppEvent.selectorToggle ⟨"Docker", none⟩)
      (appStep (AppEvent.selectorToggle ⟨"Git", none⟩)
        (appStep (AppEvent.resumeComplete "profile") initAppState)))

/-- C10 (witness): the concrete run reaching step 3 with exactly two tools
satisfies the bounds, one toggle keeps a full selection within 8, and a
Generate click with one selected tool changes nothing. -/
theorem claim_C10_witness :
    (2 ≤ sampleWizardState.selectedTools.length ∧
      sampleWizardState.selectedTools.length ≤ 8) ∧
    (toggleTool [] ⟨"Git", none⟩).length ≤ 8 ∧
    appStep AppEvent.generateClick
      { step := 2, profile := some "p", selectedTools := [], roadmap := none
      , selectorTools := [⟨"Git", none⟩] } =
      { step := 2, profile := some "p", selectedTools := [], roadmap := none
      , selectorTools := [⟨"Git", none⟩] } := by
  have hr : ReachableApp sampleWizardState :=
    ReachableApp.next _ (ReachableApp.next _ (ReachableApp.next _
      (ReachableApp.next _ ReachableApp.init)))
  exact ⟨(claim_C10_selection_bounds sampleWizardState hr).1 (by decide),
    (claim_C10_selection_bounds sampleWizardState hr).2.1 [] ⟨"Git", none⟩ (by decide),
    (claim_C10_selection_bounds sampleWizardState hr).2.2 _ (by decide) (by decide)⟩
